import Mathlib

/-!
Verification of the ledger subsystem of the waste-bank management
repository (`app/transaction_service.py`, `app/report_service.py`,
`app/models.py`).

Monetary and weight quantities are Python `Decimal` values; every
operation of the ledger subsystem combines them with exact `Decimal`
arithmetic (`*`, `+`, `-`, `max`, `sum`), so they are embedded as `ℚ`,
which models those operations exactly.

The record store (`app.database`, absent from the sources; described in
the spec as an external collaborator offering get-by-id, insert,
update, delete, scans, and per-unit-of-work atomic commit) is modelled
from the spec: each table is a list of records in insertion order,
get-by-id is first-match lookup, updating a fetched row rewrites that
row in place, and the state returned by an operation reflects either
the whole committed unit of work or (on rollback/early return) no
mutation at all.

Timestamps (`datetime.utcnow()`) are supplied by the environment; they
are modelled as an explicit `now : ℕ` argument.  The calendar date of a
timestamp (`cast(tanggal, Date)`) is modelled by an order-preserving
quotient `dateOf`.
-/

namespace WasteBank

/-- `JenisSampah` (waste type, `models.py`): buy price and sell price.
Only the price fields are ledger-relevant. -/
structure JenisSampah where
  harga_beli : ℚ
  harga_jual : ℚ
deriving DecidableEq

/-- `TransaksiSetoran` (deposit record, `models.py`). -/
structure TransaksiSetoran where
  nasabah_id : ℕ
  petugas_id : ℕ
  jenis_sampah_id : ℕ
  berat : ℚ
  nilai : ℚ
  tanggal : ℕ
deriving DecidableEq

/-- `TransaksiTarik` (withdrawal request, `models.py`); `status` is one of
the strings `"pending"`, `"completed"`, `"rejected"`. -/
structure TransaksiTarik where
  id : ℕ
  nasabah_id : ℕ
  petugas_id : ℕ
  jumlah : ℚ
  tanggal : ℕ
  status : String
deriving DecidableEq

/-- `TransaksiPengepul` (collector sale record, `models.py`). -/
structure TransaksiPengepul where
  pengepul_id : ℕ
  jenis_sampah_id : ℕ
  berat : ℚ
  harga_jual : ℚ
  total : ℚ
  tanggal : ℕ
deriving DecidableEq

/-- `TransaksiSetoranCreate` (`models.py`). -/
structure TransaksiSetoranCreate where
  nasabah_id : ℕ
  petugas_id : ℕ
  jenis_sampah_id : ℕ
  berat : ℚ
deriving DecidableEq

/-- `TransaksiTarikCreate` (`models.py`). -/
structure TransaksiTarikCreate where
  nasabah_id : ℕ
  petugas_id : ℕ
  jumlah : ℚ
deriving DecidableEq

/-- `TransaksiPengepulCreate` (`models.py`). -/
structure TransaksiPengepulCreate where
  pengepul_id : ℕ
  jenis_sampah_id : ℕ
  berat : ℚ
  harga_jual : ℚ
deriving DecidableEq

/-- The ledger-visible persistent state: the `nasabah` table reduced to
its ledger-relevant `id ↦ saldo` column, the waste-type catalog, and
the three transaction tables in insertion order.  `nextTarikId` models
the autoincrement primary key of `transaksi_tarik`. -/
structure LedgerState where
  nasabah : List (ℕ × ℚ)
  jenis : List (ℕ × JenisSampah)
  setoran : List TransaksiSetoran
  tarik : List TransaksiTarik
  pengepul : List TransaksiPengepul
  nextTarikId : ℕ
deriving DecidableEq

/-- `session.get(Model, key)`: first-match lookup by key. -/
def lookupKey (k : ℕ) : List (ℕ × α) → Option α
  | [] => none
  | kv :: rest => if kv.1 = k then some kv.2 else lookupKey k rest

/-- Mutating a row fetched by `session.get`: rewrite the value of the
first entry with the given key, leave everything else unchanged. -/
def updateKeyFirst (k : ℕ) (v : α) : List (ℕ × α) → List (ℕ × α)
  | [] => []
  | kv :: rest => if kv.1 = k then (kv.1, v) :: rest else kv :: updateKeyFirst k v rest

/-- `session.get(TransaksiTarik, tid)`: first record with the given id. -/
def findTarik (tid : ℕ) : List TransaksiTarik → Option TransaksiTarik
  | [] => none
  | t :: ts => if t.id = tid then some t else findTarik tid ts

/-- Assigning `transaksi.status = st` on the row fetched by id `tid`:
rewrite the status of the first record with that id. -/
def setTarikStatus (tid : ℕ) (st : String) : List TransaksiTarik → List TransaksiTarik
  | [] => []
  | t :: ts => if t.id = tid then { t with status := st } :: ts else t :: setTarikStatus tid st ts

/-- `TransaksiSetoranService.create_setoran` (`transaction_service.py`
lines 24-56).  Looks up the waste type (returns `None` if absent),
computes `nilai = berat * harga_beli`, inserts the deposit record,
looks up the customer (rolls back and returns `None` if absent), and
credits the customer's balance; the insert and the credit commit
together. -/
def create_setoran (s : LedgerState) (data : TransaksiSetoranCreate) (now : ℕ) :
    Option TransaksiSetoran × LedgerState :=
  match lookupKey data.jenis_sampah_id s.jenis with
  | none => (none, s)
  | some js =>
    let nilai := data.berat * js.harga_beli
    let t : TransaksiSetoran :=
      { nasabah_id := data.nasabah_id, petugas_id := data.petugas_id,
        jenis_sampah_id := data.jenis_sampah_id, berat := data.berat,
        nilai := nilai, tanggal := now }
    match lookupKey data.nasabah_id s.nasabah with
    | none => (none, s)
    | some saldo =>
      (some t,
        { s with
          setoran := s.setoran ++ [t],
          nasabah := updateKeyFirst data.nasabah_id (saldo + nilai) s.nasabah })

/-- `TransaksiTarikService.create_tarik` (`transaction_service.py`
lines 142-157).  Returns `None` if the customer is absent or
`saldo < jumlah`; otherwise inserts one new request with status
`"pending"` and touches nothing else. -/
def create_tarik (s : LedgerState) (data : TransaksiTarikCreate) (now : ℕ) :
    Option TransaksiTarik × LedgerState :=
  match lookupKey data.nasabah_id s.nasabah with
  | none => (none, s)
  | some saldo =>
    if saldo < data.jumlah then (none, s)
    else
      let t : TransaksiTarik :=
        { id := s.nextTarikId, nasabah_id := data.nasabah_id,
          petugas_id := data.petugas_id, jumlah := data.jumlah,
          tanggal := now, status := "pending" }
      (some t, { s with tarik := s.tarik ++ [t], nextTarikId := s.nextTarikId + 1 })

/-- `TransaksiTarikService.approve_tarik` (`transaction_service.py`
lines 160-179).  Returns `False` if the request is absent, not
`"pending"`, the customer is absent, or `saldo < jumlah`; otherwise
debits the balance and marks the request `"completed"`, committing
both together. -/
def approve_tarik (s : LedgerState) (tid : ℕ) : Bool × LedgerState :=
  match findTarik tid s.tarik with
  | none => (false, s)
  | some t =>
    if t.status ≠ "pending" then (false, s)
    else
      match lookupKey t.nasabah_id s.nasabah with
      | none => (false, s)
      | some saldo =>
        if saldo < t.jumlah then (false, s)
        else
          (true,
            { s with
              nasabah := updateKeyFirst t.nasabah_id (saldo - t.jumlah) s.nasabah,
              tarik := setTarikStatus tid "completed" s.tarik })

/-- `TransaksiTarikService.reject_tarik` (`transaction_service.py`
lines 182-192).  Returns `False` if the request is absent or not
`"pending"`; otherwise sets its status to `"rejected"`. -/
def reject_tarik (s : LedgerState) (tid : ℕ) : Bool × LedgerState :=
  match findTarik tid s.tarik with
  | none => (false, s)
  | some t =>
    if t.status ≠ "pending" then (false, s)
    else (true, { s with tarik := setTarikStatus tid "rejected" s.tarik })

/-- `TransaksiPengepulService.create_pengepul_transaction`
(`transaction_service.py` lines 250-267).  Computes
`total = berat * harga_jual` and inserts one record; there is no
validation and no lookup of any referenced entity. -/
def create_pengepul_transaction (s : LedgerState) (data : TransaksiPengepulCreate) (now : ℕ) :
    Option TransaksiPengepul × LedgerState :=
  let total := data.berat * data.harga_jual
  let t : TransaksiPengepul :=
    { pengepul_id := data.pengepul_id, jenis_sampah_id := data.jenis_sampah_id,
      berat := data.berat, harga_jual := data.harga_jual, total := total, tanggal := now }
  (some t, { s with pengepul := s.pengepul ++ [t] })

/-- One step of the Python dict pattern
`if k not in d: d[k] = 0` followed by `d[k] += delta`
(`get_total_waste_stock`): bump the first entry with key `k`, or append
`(k, delta)` if the key is absent. -/
def bumpAssoc (m : List (ℕ × ℚ)) (k : ℕ) (delta : ℚ) : List (ℕ × ℚ) :=
  match m with
  | [] => [(k, delta)]
  | kv :: rest => if kv.1 = k then (kv.1, kv.2 + delta) :: rest else kv :: bumpAssoc rest k delta

/-- A loop of `bumpAssoc` steps over a list of `(key, delta)` pairs. -/
def bumpFold (items : List (ℕ × ℚ)) (m : List (ℕ × ℚ)) : List (ℕ × ℚ) :=
  items.foldl (fun acc p => bumpAssoc acc p.1 p.2) m

/-- `TransaksiSetoranService.get_total_waste_stock`
(`transaction_service.py` lines 103-135).  Builds `stock_by_type` by
adding every deposit's weight and subtracting every collector sale's
weight under its waste-type id, then sums `max(stock, 0)` over the
values. -/
def get_total_waste_stock (s : LedgerState) : ℚ :=
  let stock_by_type :=
    bumpFold (s.pengepul.map (fun t => (t.jenis_sampah_id, -t.berat)))
      (bumpFold (s.setoran.map (fun t => (t.jenis_sampah_id, t.berat))) [])
  (stock_by_type.map (fun p => max p.2 0)).sum

/-- The five ledger-mutating operations, with the timestamps the
environment would supply. -/
inductive Op where
  | deposit (d : TransaksiSetoranCreate) (now : ℕ)
  | createTarik (d : TransaksiTarikCreate) (now : ℕ)
  | approveTarik (tid : ℕ)
  | rejectTarik (tid : ℕ)
  | sale (d : TransaksiPengepulCreate) (now : ℕ)
deriving DecidableEq

/-- The state after one ledger operation (the operation's return value
is discarded). -/
def applyOp (s : LedgerState) : Op → LedgerState
  | Op.deposit d now => (create_setoran s d now).2
  | Op.createTarik d now => (create_tarik s d now).2
  | Op.approveTarik tid => (approve_tarik s tid).2
  | Op.rejectTarik tid => (reject_tarik s tid).2
  | Op.sale d now => (create_pengepul_transaction s d now).2

/-- The state after a sequence of ledger operations. -/
def runOps (s : LedgerState) (ops : List Op) : LedgerState := ops.foldl applyOp s

/-- An empty ledger: a catalog of customers (each with the default
`saldo = 0` of `models.py`) and waste types, and no transaction
records. -/
def emptyLedger (ns : List ℕ) (js : List (ℕ × JenisSampah)) : LedgerState :=
  { nasabah := ns.map (fun n => (n, 0)), jenis := js,
    setoran := [], tarik := [], pengepul := [], nextTarikId := 0 }

/-- Sum of `nilai` over a customer's deposit records. -/
def sumSetoranFor (nid : ℕ) : List TransaksiSetoran → ℚ
  | [] => 0
  | t :: ts => (if t.nasabah_id = nid then t.nilai else 0) + sumSetoranFor nid ts

/-- Sum of `jumlah` over a customer's withdrawal requests whose status
is `"completed"`. -/
def sumCompletedFor (nid : ℕ) : List TransaksiTarik → ℚ
  | [] => 0
  | t :: ts =>
    (if t.nasabah_id = nid ∧ t.status = "completed" then t.jumlah else 0) + sumCompletedFor nid ts

/-- Total deposited weight recorded for one waste type. -/
def depositedWeight (k : ℕ) : List TransaksiSetoran → ℚ
  | [] => 0
  | t :: ts => (if t.jenis_sampah_id = k then t.berat else 0) + depositedWeight k ts

/-- Total weight sold to collectors for one waste type. -/
def soldWeight (k : ℕ) : List TransaksiPengepul → ℚ
  | [] => 0
  | t :: ts => (if t.jenis_sampah_id = k then t.berat else 0) + soldWeight k ts

/-- Round-half-up to 2 fractional digits, the currency rounding the
spec prescribes for deposit values. -/
def roundHalfUp2 (q : ℚ) : ℚ := (⌊q * 100 + 1 / 2⌋ : ℚ) / 100

/-! ### Lookup and update lemmas -/

theorem lookupKey_updateKeyFirst_self (k : ℕ) (v : α) (l : List (ℕ × α)) :
    lookupKey k (updateKeyFirst k v l) = (lookupKey k l).map (fun _ => v) := by
  induction l with
  | nil => simp [lookupKey, updateKeyFirst]
  | cons kv rest ih =>
    by_cases h : kv.1 = k <;> simp [lookupKey, updateKeyFirst, h, ih]

theorem lookupKey_updateKeyFirst_ne (kq k : ℕ) (v : α) (l : List (ℕ × α)) (h : kq ≠ k) :
    lookupKey kq (updateKeyFirst k v l) = lookupKey kq l := by
  induction l with
  | nil => simp [lookupKey, updateKeyFirst]
  | cons kv rest ih =>
    by_cases hk : kv.1 = k
    · have hne : ¬ kv.1 = kq := by rw [hk]; exact fun hc => h hc.symm
      simp [lookupKey, updateKeyFirst, hk, hne, Ne.symm h]
    · by_cases hq : kv.1 = kq <;>
        simp [lookupKey, updateKeyFirst, hk, hq, ih, h, Ne.symm h]

theorem lookupKey_mem (k : ℕ) (v : α) (l : List (ℕ × α)) (h : lookupKey k l = some v) :
    (k, v) ∈ l := by
  induction l with
  | nil => simp [lookupKey] at h
  | cons kv rest ih =>
    obtain ⟨kone, vone⟩ := kv
    by_cases hk : kone = k
    · subst hk
      simp [lookupKey] at h
      subst h
      exact List.mem_cons_self _ _
    · simp [lookupKey, hk] at h
      exact List.mem_cons_of_mem _ (ih h)

theorem lookupKey_map_zero (k : ℕ) (ns : List ℕ) (q : ℚ)
    (h : lookupKey k (ns.map (fun n => (n, (0 : ℚ)))) = some q) : q = 0 := by
  induction ns with
  | nil => simp [lookupKey] at h
  | cons n rest ih =>
    by_cases hk : n = k
    · simp [lookupKey, hk] at h
      exact h.symm
    · simp [lookupKey, hk] at h
      exact ih h

/-! ### Withdrawal-list lemmas -/

theorem findTarik_append_some (tid : ℕ) (l ltwo : List TransaksiTarik) (t : TransaksiTarik)
    (h : findTarik tid l = some t) : findTarik tid (l ++ ltwo) = some t := by
  induction l with
  | nil => simp [findTarik] at h
  | cons x xs ih =>
    by_cases hx : x.id = tid <;> simp_all [findTarik, hx]

theorem findTarik_setTarikStatus_self (tid : ℕ) (st : String) (l : List TransaksiTarik)
    (t : TransaksiTarik) (h : findTarik tid l = some t) :
    findTarik tid (setTarikStatus tid st l) = some { t with status := st } := by
  induction l with
  | nil => simp [findTarik] at h
  | cons x xs ih =>
    by_cases hx : x.id = tid
    · simp [findTarik, hx] at h
      subst h
      simp [findTarik, setTarikStatus, hx]
    · simp [findTarik, hx] at h
      simp [findTarik, setTarikStatus, hx, ih h]

theorem findTarik_setTarikStatus_ne (tid tidtwo : ℕ) (st : String) (l : List TransaksiTarik)
    (h : tidtwo ≠ tid) :
    findTarik tid (setTarikStatus tidtwo st l) = findTarik tid l := by
  induction l with
  | nil => simp [findTarik, setTarikStatus]
  | cons x xs ih =>
    by_cases hx : x.id = tidtwo
    · have hne : ¬ x.id = tid := by rw [hx]; exact h
      simp [findTarik, setTarikStatus, hx, hne, h]
    · by_cases ht : x.id = tid <;>
        simp [findTarik, setTarikStatus, hx, ht, ih, h, Ne.symm h]

/-! ### Per-customer sum lemmas -/

theorem sumSetoranFor_append (nid : ℕ) (l ltwo : List TransaksiSetoran) :
    sumSetoranFor nid (l ++ ltwo) = sumSetoranFor nid l + sumSetoranFor nid ltwo := by
  induction l with
  | nil => simp [sumSetoranFor]
  | cons x xs ih => simp [sumSetoranFor, ih]; ring

theorem sumCompletedFor_append (nid : ℕ) (l ltwo : List TransaksiTarik) :
    sumCompletedFor nid (l ++ ltwo) = sumCompletedFor nid l + sumCompletedFor nid ltwo := by
  induction l with
  | nil => simp [sumCompletedFor]
  | cons x xs ih => simp [sumCompletedFor, ih]; ring

theorem sumCompletedFor_setTarikStatus (nid tid : ℕ) (st : String) (l : List TransaksiTarik)
    (t : TransaksiTarik) (h : findTarik tid l = some t) :
    sumCompletedFor nid (setTarikStatus tid st l) =
      sumCompletedFor nid l
        - (if t.nasabah_id = nid ∧ t.status = "completed" then t.jumlah else 0)
        + (if t.nasabah_id = nid ∧ st = "completed" then t.jumlah else 0) := by
  induction l with
  | nil => simp [findTarik] at h
  | cons x xs ih =>
    by_cases hx : x.id = tid
    · simp [findTarik, hx] at h
      subst h
      simp [setTarikStatus, sumCompletedFor, hx]
      ring
    · simp [findTarik, hx] at h
      simp [setTarikStatus, sumCompletedFor, hx, ih h]
      ring

/-! ### Operation shape lemmas -/

theorem create_setoran_none_jenis (s : LedgerState) (data : TransaksiSetoranCreate) (now : ℕ)
    (h : lookupKey data.jenis_sampah_id s.jenis = none) :
    create_setoran s data now = (none, s) := by
  simp [create_setoran, h]

theorem create_setoran_none_nasabah (s : LedgerState) (data : TransaksiSetoranCreate) (now : ℕ)
    (js : JenisSampah) (hj : lookupKey data.jenis_sampah_id s.jenis = some js)
    (hn : lookupKey data.nasabah_id s.nasabah = none) :
    create_setoran s data now = (none, s) := by
  simp [create_setoran, hj, hn]

theorem create_setoran_eq_some (s : LedgerState) (data : TransaksiSetoranCreate) (now : ℕ)
    (js : JenisSampah) (saldo : ℚ)
    (hj : lookupKey data.jenis_sampah_id s.jenis = some js)
    (hn : lookupKey data.nasabah_id s.nasabah = some saldo) :
    create_setoran s data now =
      (some { nasabah_id := data.nasabah_id, petugas_id := data.petugas_id,
              jenis_sampah_id := data.jenis_sampah_id, berat := data.berat,
              nilai := data.berat * js.harga_beli, tanggal := now },
       { s with
         setoran := s.setoran ++
           [{ nasabah_id := data.nasabah_id, petugas_id := data.petugas_id,
              jenis_sampah_id := data.jenis_sampah_id, berat := data.berat,
              nilai := data.berat * js.harga_beli, tanggal := now }],
         nasabah :=
           updateKeyFirst data.nasabah_id (saldo + data.berat * js.harga_beli) s.nasabah }) := by
  simp [create_setoran, hj, hn]

theorem create_tarik_none_nasabah (s : LedgerState) (data : TransaksiTarikCreate) (now : ℕ)
    (h : lookupKey data.nasabah_id s.nasabah = none) :
    create_tarik s data now = (none, s) := by
  simp [create_tarik, h]

theorem create_tarik_insufficient (s : LedgerState) (data : TransaksiTarikCreate) (now : ℕ)
    (saldo : ℚ) (hn : lookupKey data.nasabah_id s.nasabah = some saldo)
    (hlt : saldo < data.jumlah) :
    create_tarik s data now = (none, s) := by
  simp [create_tarik, hn, hlt]

theorem create_tarik_eq_some (s : LedgerState) (data : TransaksiTarikCreate) (now : ℕ)
    (saldo : ℚ) (hn : lookupKey data.nasabah_id s.nasabah = some saldo)
    (hge : data.jumlah ≤ saldo) :
    create_tarik s data now =
      (some { id := s.nextTarikId, nasabah_id := data.nasabah_id,
              petugas_id := data.petugas_id, jumlah := data.jumlah,
              tanggal := now, status := "pending" },
       { s with
         tarik := s.tarik ++
           [{ id := s.nextTarikId, nasabah_id := data.nasabah_id,
              petugas_id := data.petugas_id, jumlah := data.jumlah,
              tanggal := now, status := "pending" }],
         nextTarikId := s.nextTarikId + 1 }) := by
  simp [create_tarik, hn, not_lt.mpr hge]

theorem approve_tarik_none (s : LedgerState) (tid : ℕ)
    (h : findTarik tid s.tarik = none) : approve_tarik s tid = (false, s) := by
  simp [approve_tarik, h]

theorem approve_tarik_not_pending (s : LedgerState) (tid : ℕ) (t : TransaksiTarik)
    (hf : findTarik tid s.tarik = some t) (hs : t.status ≠ "pending") :
    approve_tarik s tid = (false, s) := by
  simp [approve_tarik, hf, hs]

theorem approve_tarik_no_nasabah (s : LedgerState) (tid : ℕ) (t : TransaksiTarik)
    (hf : findTarik tid s.tarik = some t) (hs : t.status = "pending")
    (hn : lookupKey t.nasabah_id s.nasabah = none) :
    approve_tarik s tid = (false, s) := by
  simp [approve_tarik, hf, hs, hn]

theorem approve_tarik_insufficient (s : LedgerState) (tid : ℕ) (t : TransaksiTarik)
    (saldo : ℚ) (hf : findTarik tid s.tarik = some t) (hs : t.status = "pending")
    (hn : lookupKey t.nasabah_id s.nasabah = some saldo) (hlt : saldo < t.jumlah) :
    approve_tarik s tid = (false, s) := by
  simp [approve_tarik, hf, hs, hn, hlt]

theorem approve_tarik_eq_true (s : LedgerState) (tid : ℕ) (t : TransaksiTarik)
    (saldo : ℚ) (hf : findTarik tid s.tarik = some t) (hs : t.status = "pending")
    (hn : lookupKey t.nasabah_id s.nasabah = some saldo) (hge : t.jumlah ≤ saldo) :
    approve_tarik s tid =
      (true,
        { s with
          nasabah := updateKeyFirst t.nasabah_id (saldo - t.jumlah) s.nasabah,
          tarik := setTarikStatus tid "completed" s.tarik }) := by
  simp [approve_tarik, hf, hs, hn, not_lt.mpr hge]

theorem reject_tarik_none (s : LedgerState) (tid : ℕ)
    (h : findTarik tid s.tarik = none) : reject_tarik s tid = (false, s) := by
  simp [reject_tarik, h]

theorem reject_tarik_not_pending (s : LedgerState) (tid : ℕ) (t : TransaksiTarik)
    (hf : findTarik tid s.tarik = some t) (hs : t.status ≠ "pending") :
    reject_tarik s tid = (false, s) := by
  simp [reject_tarik, hf, hs]

theorem reject_tarik_eq_true (s : LedgerState) (tid : ℕ) (t : TransaksiTarik)
    (hf : findTarik tid s.tarik = some t) (hs : t.status = "pending") :
    reject_tarik s tid = (true, { s with tarik := setTarikStatus tid "rejected" s.tarik }) := by
  simp [reject_tarik, hf, hs]

/-! ### Balance conservation -/

/-- Every customer's stored balance equals deposits minus completed
withdrawals. -/
def BalanceInv (s : LedgerState) : Prop :=
  ∀ nid q, lookupKey nid s.nasabah = some q →
    q = sumSetoranFor nid s.setoran - sumCompletedFor nid s.tarik

theorem balanceInv_applyOp (s : LedgerState) (op : Op) (h : BalanceInv s) :
    BalanceInv (applyOp s op) := by
  cases op with
  | deposit d now =>
    cases hj : lookupKey d.jenis_sampah_id s.jenis with
    | none => simpa [applyOp, create_setoran_none_jenis s d now hj] using h
    | some js =>
      cases hn : lookupKey d.nasabah_id s.nasabah with
      | none => simpa [applyOp, create_setoran_none_nasabah s d now js hj hn] using h
      | some saldo =>
        intro nid q hq
        simp only [applyOp, create_setoran_eq_some s d now js saldo hj hn] at hq ⊢
        rw [sumSetoranFor_append]
        by_cases hnid : nid = d.nasabah_id
        · subst hnid
          rw [lookupKey_updateKeyFirst_self, hn] at hq
          simp at hq
          have hb := h d.nasabah_id saldo hn
          simp [sumSetoranFor]
          linarith
        · rw [lookupKey_updateKeyFirst_ne nid d.nasabah_id _ _ hnid] at hq
          have hb := h nid q hq
          simp [sumSetoranFor, Ne.symm hnid, hb]
  | createTarik d now =>
    cases hn : lookupKey d.nasabah_id s.nasabah with
    | none => simpa [applyOp, create_tarik_none_nasabah s d now hn] using h
    | some saldo =>
      by_cases hlt : saldo < d.jumlah
      · simpa [applyOp, create_tarik_insufficient s d now saldo hn hlt] using h
      · intro nid q hq
        simp only [applyOp, create_tarik_eq_some s d now saldo hn (not_lt.mp hlt)] at hq ⊢
        rw [sumCompletedFor_append]
        have hb := h nid q hq
        simp [sumCompletedFor, hb]
  | approveTarik tid =>
    cases hf : findTarik tid s.tarik with
    | none => simpa [applyOp, approve_tarik_none s tid hf] using h
    | some t =>
      by_cases hs : t.status = "pending"
      · cases hn : lookupKey t.nasabah_id s.nasabah with
        | none => simpa [applyOp, approve_tarik_no_nasabah s tid t hf hs hn] using h
        | some saldo =>
          by_cases hlt : saldo < t.jumlah
          · simpa [applyOp, approve_tarik_insufficient s tid t saldo hf hs hn hlt] using h
          · intro nid q hq
            simp only [applyOp,
              approve_tarik_eq_true s tid t saldo hf hs hn (not_lt.mp hlt)] at hq ⊢
            rw [sumCompletedFor_setTarikStatus nid tid "completed" s.tarik t hf]
            by_cases hnid : nid = t.nasabah_id
            · subst hnid
              rw [lookupKey_updateKeyFirst_self, hn] at hq
              simp at hq
              have hb := h t.nasabah_id saldo hn
              simp [hs]
              linarith
            · rw [lookupKey_updateKeyFirst_ne nid t.nasabah_id _ _ hnid] at hq
              have hb := h nid q hq
              simp [Ne.symm hnid, hb]
      · simpa [applyOp, approve_tarik_not_pending s tid t hf hs] using h
  | rejectTarik tid =>
    cases hf : findTarik tid s.tarik with
    | none => simpa [applyOp, reject_tarik_none s tid hf] using h
    | some t =>
      by_cases hs : t.status = "pending"
      · intro nid q hq
        simp only [applyOp, reject_tarik_eq_true s tid t hf hs] at hq ⊢
        rw [sumCompletedFor_setTarikStatus nid tid "rejected" s.tarik t hf]
        have hb := h nid q hq
        simp [hs, hb]
      · simpa [applyOp, reject_tarik_not_pending s tid t hf hs] using h
  | sale d now =>
    intro nid q hq
    simp only [applyOp, create_pengepul_transaction] at hq ⊢
    exact h nid q hq

theorem balanceInv_runOps (s : LedgerState) (ops : List Op) (h : BalanceInv s) :
    BalanceInv (runOps s ops) := by
  induction ops generalizing s with
  | nil => simpa [runOps] using h
  | cons op rest ih =>
    have hstep := balanceInv_applyOp s op h
    simpa [runOps] using ih (applyOp s op) hstep

theorem balanceInv_emptyLedger (ns : List ℕ) (js : List (ℕ × JenisSampah)) :
    BalanceInv (emptyLedger ns js) := by
  intro nid q hq
  simp only [emptyLedger] at hq
  have hz := lookupKey_map_zero nid ns q hq
  simp [emptyLedger, sumSetoranFor, sumCompletedFor, hz]

/-- C1.  Balance conservation: in every state reachable from an empty
ledger by any sequence of `create_setoran`, `create_tarik`,
`approve_tarik`, `reject_tarik` and `create_pengepul_transaction`,
every customer's `saldo` equals the sum of `nilai` over that customer's
deposit records minus the sum of `jumlah` over that customer's
withdrawal requests whose status is `"completed"`. -/
theorem balance_conservation (ns : List ℕ) (js : List (ℕ × JenisSampah)) (ops : List Op)
    (nid : ℕ) (q : ℚ)
    (h : lookupKey nid (runOps (emptyLedger ns js) ops).nasabah = some q) :
    q = sumSetoranFor nid (runOps (emptyLedger ns js) ops).setoran
          - sumCompletedFor nid (runOps (emptyLedger ns js) ops).tarik :=
  balanceInv_runOps (emptyLedger ns js) ops (balanceInv_emptyLedger ns js) nid q h

/-- Witness for C1: one customer, one waste type priced 10, one deposit
of weight 2; the stored balance 20 equals deposits minus completed
withdrawals. -/
theorem balance_conservation_witness :
    lookupKey 1 (runOps (emptyLedger [1] [(1, ⟨10, 12⟩)])
        [Op.deposit ⟨1, 1, 1, 2⟩ 5]).nasabah = some 20 ∧
    (20 : ℚ) = sumSetoranFor 1 (runOps (emptyLedger [1] [(1, ⟨10, 12⟩)])
          [Op.deposit ⟨1, 1, 1, 2⟩ 5]).setoran
        - sumCompletedFor 1 (runOps (emptyLedger [1] [(1, ⟨10, 12⟩)])
          [Op.deposit ⟨1, 1, 1, 2⟩ 5]).tarik :=
  ⟨by norm_num [runOps, applyOp, create_setoran, emptyLedger, lookupKey, updateKeyFirst],
   balance_conservation [1] [(1, ⟨10, 12⟩)] [Op.deposit ⟨1, 1, 1, 2⟩ 5] 1 20
     (by norm_num [runOps, applyOp, create_setoran, emptyLedger, lookupKey, updateKeyFirst])⟩

/-! ### Balance non-negativity -/

theorem applyOp_jenis (s : LedgerState) (op : Op) : (applyOp s op).jenis = s.jenis := by
  cases op <;>
    simp only [applyOp, create_setoran, create_tarik, approve_tarik, reject_tarik,
      create_pengepul_transaction] <;>
    (repeat' split) <;> rfl

/-- Every stored balance is non-negative. -/
def NonNegInv (s : LedgerState) : Prop :=
  ∀ nid q, lookupKey nid s.nasabah = some q → 0 ≤ q

theorem nonNegInv_applyOp (s : LedgerState) (op : Op)
    (hjs : ∀ kv ∈ s.jenis, 0 ≤ (Prod.snd kv).harga_beli)
    (hop : ∀ d now, op = Op.deposit d now → 0 ≤ d.berat)
    (h : NonNegInv s) : NonNegInv (applyOp s op) := by
  cases op with
  | deposit d now =>
    cases hj : lookupKey d.jenis_sampah_id s.jenis with
    | none => simpa [applyOp, create_setoran_none_jenis s d now hj] using h
    | some js =>
      cases hn : lookupKey d.nasabah_id s.nasabah with
      | none => simpa [applyOp, create_setoran_none_nasabah s d now js hj hn] using h
      | some saldo =>
        intro nid q hq
        simp only [applyOp, create_setoran_eq_some s d now js saldo hj hn] at hq
        by_cases hnid : nid = d.nasabah_id
        · subst hnid
          rw [lookupKey_updateKeyFirst_self, hn] at hq
          simp at hq
          have hprice : 0 ≤ js.harga_beli :=
            hjs (d.jenis_sampah_id, js) (lookupKey_mem _ _ _ hj)
          have hberat : 0 ≤ d.berat := hop d now rfl
          have hsaldo : 0 ≤ saldo := h d.nasabah_id saldo hn
          nlinarith
        · rw [lookupKey_updateKeyFirst_ne nid d.nasabah_id _ _ hnid] at hq
          exact h nid q hq
  | createTarik d now =>
    cases hn : lookupKey d.nasabah_id s.nasabah with
    | none => simpa [applyOp, create_tarik_none_nasabah s d now hn] using h
    | some saldo =>
      by_cases hlt : saldo < d.jumlah
      · simpa [applyOp, create_tarik_insufficient s d now saldo hn hlt] using h
      · intro nid q hq
        simp only [applyOp, create_tarik_eq_some s d now saldo hn (not_lt.mp hlt)] at hq
        exact h nid q hq
  | approveTarik tid =>
    cases hf : findTarik tid s.tarik with
    | none => simpa [applyOp, approve_tarik_none s tid hf] using h
    | some t =>
      by_cases hs : t.status = "pending"
      · cases hn : lookupKey t.nasabah_id s.nasabah with
        | none => simpa [applyOp, approve_tarik_no_nasabah s tid t hf hs hn] using h
        | some saldo =>
          by_cases hlt : saldo < t.jumlah
          · simpa [applyOp, approve_tarik_insufficient s tid t saldo hf hs hn hlt] using h
          · intro nid q hq
            simp only [applyOp,
              approve_tarik_eq_true s tid t saldo hf hs hn (not_lt.mp hlt)] at hq
            by_cases hnid : nid = t.nasabah_id
            · subst hnid
              rw [lookupKey_updateKeyFirst_self, hn] at hq
              simp at hq
              have hge := not_lt.mp hlt
              linarith
            · rw [lookupKey_updateKeyFirst_ne nid t.nasabah_id _ _ hnid] at hq
              exact h nid q hq
      · simpa [applyOp, approve_tarik_not_pending s tid t hf hs] using h
  | rejectTarik tid =>
    cases hf : findTarik tid s.tarik with
    | none => simpa [applyOp, reject_tarik_none s tid hf] using h
    | some t =>
      by_cases hs : t.status = "pending"
      · intro nid q hq
        simp only [applyOp, reject_tarik_eq_true s tid t hf hs] at hq
        exact h nid q hq
      · simpa [applyOp, reject_tarik_not_pending s tid t hf hs] using h
  | sale d now =>
    intro nid q hq
    simp only [applyOp, create_pengepul_transaction] at hq
    exact h nid q hq

theorem nonNegInv_runOps (s : LedgerState) (ops : List Op)
    (hjs : ∀ kv ∈ s.jenis, 0 ≤ (Prod.snd kv).harga_beli)
    (hops : ∀ op ∈ ops, ∀ d now, op = Op.deposit d now → 0 ≤ d.berat)
    (h : NonNegInv s) : NonNegInv (runOps s ops) := by
  induction ops generalizing s with
  | nil => simpa [runOps] using h
  | cons op rest ih =>
    have hstep := nonNegInv_applyOp s op hjs (hops op (List.mem_cons_self op rest)) h
    have hjstep : ∀ kv ∈ (applyOp s op).jenis, 0 ≤ (Prod.snd kv).harga_beli := by
      rw [applyOp_jenis]
      exact hjs
    have hrest : ∀ o ∈ rest, ∀ d now, o = Op.deposit d now → 0 ≤ d.berat :=
      fun o ho => hops o (List.mem_cons_of_mem op ho)
    simpa [runOps] using ih (applyOp s op) hjstep hrest hstep

/-- C2 (amended).  Balance non-negativity holds for every state
reachable from an empty ledger by operation sequences in which every
`create_setoran` argument has weight ≥ 0, given a catalog whose buy
prices are ≥ 0; the code accepts deposits of negative weight, which
break the invariant (see the counterexample). -/
theorem balance_nonneg_of_nonneg_deposits (ns : List ℕ) (js : List (ℕ × JenisSampah))
    (ops : List Op)
    (hjs : ∀ kv ∈ js, 0 ≤ (Prod.snd kv).harga_beli)
    (hops : ∀ op ∈ ops, ∀ d now, op = Op.deposit d now → 0 ≤ d.berat)
    (nid : ℕ) (q : ℚ)
    (h : lookupKey nid (runOps (emptyLedger ns js) ops).nasabah = some q) :
    0 ≤ q := by
  have hinit : NonNegInv (emptyLedger ns js) := by
    intro nidzero qzero hqzero
    simp only [emptyLedger] at hqzero
    rw [lookupKey_map_zero nidzero ns qzero hqzero]
  exact nonNegInv_runOps (emptyLedger ns js) ops hjs hops hinit nid q h

/-- Counterexample to C2 as stated: `create_setoran` accepts a deposit
of weight −1 (no validation in the code), driving the customer's
balance to −10 < 0 in a reachable state. -/
theorem balance_nonneg_cex :
    lookupKey 1 (runOps (emptyLedger [1] [(1, ⟨10, 12⟩)])
        [Op.deposit ⟨1, 1, 1, -1⟩ 0]).nasabah = some (-10) ∧
    ¬ (0 : ℚ) ≤ -10 := by
  constructor
  · norm_num [runOps, applyOp, create_setoran, emptyLedger, lookupKey, updateKeyFirst]
  · norm_num

/-- Witness for C2 (amended): with the non-negative weight 2 the final
balance 20 is non-negative. -/
theorem balance_nonneg_witness :
    (0 : ℚ) ≤ 20 ∧
    lookupKey 1 (runOps (emptyLedger [1] [(1, ⟨10, 12⟩)])
        [Op.deposit ⟨1, 1, 1, 2⟩ 5]).nasabah = some 20 :=
  ⟨balance_nonneg_of_nonneg_deposits [1] [(1, ⟨10, 12⟩)] [Op.deposit ⟨1, 1, 1, 2⟩ 5]
      (by intro kv hkv; simp at hkv; rw [hkv]; norm_num)
      (by
        intro op hop d now heq
        simp at hop
        rw [hop] at heq
        cases heq
        norm_num)
      1 20
      (by norm_num [runOps, applyOp, create_setoran, emptyLedger, lookupKey, updateKeyFirst]),
   by norm_num [runOps, applyOp, create_setoran, emptyLedger, lookupKey, updateKeyFirst]⟩

/-! ### Deposit contract -/

/-- C3 (amended).  `create_setoran` fails (returns `None`, mutating
nothing) when the waste type or the customer does not exist; otherwise
— for any weight, with no validation of `weight > 0` — it records
`nilai = berat * harga_beli` exactly (no rounding), appends exactly one
deposit record carrying that value, and increases that customer's
balance by exactly that value, with record append and balance credit in
the same committed state and every other table untouched. -/
theorem create_setoran_contract (s : LedgerState) (d : TransaksiSetoranCreate) (now : ℕ) :
    (lookupKey d.jenis_sampah_id s.jenis = none →
      create_setoran s d now = (none, s)) ∧
    (∀ js, lookupKey d.jenis_sampah_id s.jenis = some js →
      lookupKey d.nasabah_id s.nasabah = none →
      create_setoran s d now = (none, s)) ∧
    (∀ js saldo, lookupKey d.jenis_sampah_id s.jenis = some js →
      lookupKey d.nasabah_id s.nasabah = some saldo →
      ∃ t, (create_setoran s d now).1 = some t ∧
        t.nilai = d.berat * js.harga_beli ∧
        (create_setoran s d now).2.setoran = s.setoran ++ [t] ∧
        lookupKey d.nasabah_id (create_setoran s d now).2.nasabah
          = some (saldo + d.berat * js.harga_beli) ∧
        (∀ nid, nid ≠ d.nasabah_id →
          lookupKey nid (create_setoran s d now).2.nasabah = lookupKey nid s.nasabah) ∧
        (create_setoran s d now).2.tarik = s.tarik ∧
        (create_setoran s d now).2.pengepul = s.pengepul ∧
        (create_setoran s d now).2.jenis = s.jenis) := by
  refine ⟨create_setoran_none_jenis s d now,
    fun js hj hn => create_setoran_none_nasabah s d now js hj hn,
    fun js saldo hj hn => ?_⟩
  rw [create_setoran_eq_some s d now js saldo hj hn]
  refine ⟨_, rfl, rfl, rfl, ?_, ?_, rfl, rfl, rfl⟩
  · rw [lookupKey_updateKeyFirst_self, hn]
    rfl
  · intro nid hnid
    exact lookupKey_updateKeyFirst_ne nid d.nasabah_id _ _ hnid

/-- Counterexample to C3 as stated: a deposit of weight −2 succeeds
(the code has no `weight > 0` validation), appends a record and drives
the balance to −20; and a deposit of weight 0.111 at buy price 0.15
records the exact value 0.01665, which round-half-up to 2 digits would
have changed to 0.02. -/
theorem create_setoran_cex :
    ((create_setoran (emptyLedger [1] [(1, ⟨10, 12⟩)]) ⟨1, 1, 1, -2⟩ 0).1).isSome = true ∧
    (create_setoran (emptyLedger [1] [(1, ⟨10, 12⟩)]) ⟨1, 1, 1, -2⟩ 0).2.setoran.length = 1 ∧
    lookupKey 1 (create_setoran (emptyLedger [1] [(1, ⟨10, 12⟩)]) ⟨1, 1, 1, -2⟩ 0).2.nasabah
      = some (-20) ∧
    ((create_setoran (emptyLedger [1] [(1, ⟨3 / 20, 1⟩)]) ⟨1, 1, 1, 111 / 1000⟩ 0).2.setoran.map
        (fun t => t.nilai)) = [(333 : ℚ) / 20000] ∧
    roundHalfUp2 ((333 : ℚ) / 20000) ≠ (333 : ℚ) / 20000 := by
  refine ⟨?_, ?_, ?_, ?_, ?_⟩ <;>
    norm_num [create_setoran, emptyLedger, lookupKey, updateKeyFirst, roundHalfUp2]

/-- Witness for C3 (amended), at one customer with balance 0 and one
waste type priced 10: the deposit of weight 2 appends one record and
credits 0 + 2·10. -/
theorem create_setoran_contract_witness :
    (create_setoran (emptyLedger [1] [(1, ⟨10, 12⟩)]) ⟨1, 1, 1, 2⟩ 0).2.setoran.length = 1 ∧
    lookupKey 1 (create_setoran (emptyLedger [1] [(1, ⟨10, 12⟩)]) ⟨1, 1, 1, 2⟩ 0).2.nasabah
      = some (0 + 2 * 10) := by
  obtain ⟨t, h1, h2, h3, h4, h5⟩ :=
    (create_setoran_contract (emptyLedger [1] [(1, ⟨10, 12⟩)]) ⟨1, 1, 1, 2⟩ 0).2.2 ⟨10, 12⟩ 0
      (by norm_num [emptyLedger, lookupKey]) (by norm_num [emptyLedger, lookupKey])
  constructor
  · rw [h3]
    simp [emptyLedger]
  · exact h4

/-! ### Withdrawal-creation contract -/

/-- C5 (amended).  `create_tarik` fails (returns `None`, mutating
nothing) when the customer does not exist or when `amount > saldo` at
call time; otherwise — with no validation of `amount > 0`, so a
non-positive amount not exceeding the balance is accepted — it appends
exactly one request with status `"pending"` and changes no balance and
no other table. -/
theorem create_tarik_contract (s : LedgerState) (d : TransaksiTarikCreate) (now : ℕ) :
    (lookupKey d.nasabah_id s.nasabah = none → create_tarik s d now = (none, s)) ∧
    (∀ saldo, lookupKey d.nasabah_id s.nasabah = some saldo →
      (saldo < d.jumlah → create_tarik s d now = (none, s)) ∧
      (d.jumlah ≤ saldo →
        ∃ t, (create_tarik s d now).1 = some t ∧
          t.status = "pending" ∧ t.jumlah = d.jumlah ∧ t.nasabah_id = d.nasabah_id ∧
          (create_tarik s d now).2.tarik = s.tarik ++ [t] ∧
          (create_tarik s d now).2.nasabah = s.nasabah ∧
          (create_tarik s d now).2.setoran = s.setoran ∧
          (create_tarik s d now).2.pengepul = s.pengepul)) := by
  refine ⟨create_tarik_none_nasabah s d now, fun saldo hn => ⟨?_, ?_⟩⟩
  · exact fun hlt => create_tarik_insufficient s d now saldo hn hlt
  · intro hge
    rw [create_tarik_eq_some s d now saldo hn hge]
    exact ⟨_, rfl, rfl, rfl, rfl, rfl, rfl, rfl, rfl⟩

/-- Counterexample to C5 as stated: with balance 0 a withdrawal of
amount −5 (≤ 0, so the claim demands a ValidationError failure with no
mutation) succeeds and appends a pending request, because the only
check in the code is `saldo < jumlah`. -/
theorem create_tarik_cex :
    ((create_tarik (emptyLedger [1] []) ⟨1, 1, -5⟩ 0).1).isSome = true ∧
    (create_tarik (emptyLedger [1] []) ⟨1, 1, -5⟩ 0).2.tarik.length = 1 ∧
    ((create_tarik (emptyLedger [1] []) ⟨1, 1, -5⟩ 0).2.tarik.map (fun t => t.status))
      = ["pending"] := by
  refine ⟨?_, ?_, ?_⟩ <;> norm_num [create_tarik, emptyLedger, lookupKey]

/-- Witness for C5 (amended): with balance 0 and amount 0 the request
is created pending and the balance is untouched. -/
theorem create_tarik_contract_witness :
    ((create_tarik (emptyLedger [1] []) ⟨1, 1, 0⟩ 0).1).isSome = true ∧
    (create_tarik (emptyLedger [1] []) ⟨1, 1, 0⟩ 0).2.nasabah
      = (emptyLedger [1] []).nasabah := by
  obtain ⟨t, h1, h2, h3, h4, h5, h6, h7, h8⟩ :=
    ((create_tarik_contract (emptyLedger [1] []) ⟨1, 1, 0⟩ 0).2 0
      (by norm_num [emptyLedger, lookupKey])).2 (by norm_num)
  exact ⟨by rw [h1]; rfl, h6⟩

/-! ### Withdrawal approval contract -/

/-- C4.  `approve_tarik` on an existing `"pending"` request: with
`saldo ≥ jumlah` it returns the success outcome, debits the balance by
exactly `jumlah` and marks the request `"completed"` in the same
committed state, and a second approval of the same request fails and
mutates nothing; with `saldo < jumlah` it fails and the state — the
request still `"pending"` — is unchanged; on a non-pending request it
fails and mutates nothing.  (The code signals every failure by the
single value `False`; the spec's distinct error kinds correspond to the
code's distinct guard branches.) -/
theorem approve_tarik_contract (s : LedgerState) (tid : ℕ) :
    (∀ t saldo, findTarik tid s.tarik = some t → t.status = "pending" →
      lookupKey t.nasabah_id s.nasabah = some saldo →
      (t.jumlah ≤ saldo →
        (approve_tarik s tid).1 = true ∧
        lookupKey t.nasabah_id (approve_tarik s tid).2.nasabah = some (saldo - t.jumlah) ∧
        (∀ nid, nid ≠ t.nasabah_id →
          lookupKey nid (approve_tarik s tid).2.nasabah = lookupKey nid s.nasabah) ∧
        findTarik tid (approve_tarik s tid).2.tarik = some { t with status := "completed" } ∧
        (approve_tarik s tid).2.setoran = s.setoran ∧
        approve_tarik (approve_tarik s tid).2 tid = (false, (approve_tarik s tid).2)) ∧
      (saldo < t.jumlah → approve_tarik s tid = (false, s))) ∧
    (∀ t, findTarik tid s.tarik = some t → t.status ≠ "pending" →
      approve_tarik s tid = (false, s)) := by
  refine ⟨fun t saldo hf hs hn => ⟨fun hge => ?_, fun hlt =>
    approve_tarik_insufficient s tid t saldo hf hs hn hlt⟩,
    fun t hf hs => approve_tarik_not_pending s tid t hf hs⟩
  have heq := approve_tarik_eq_true s tid t saldo hf hs hn hge
  have hfound : findTarik tid (approve_tarik s tid).2.tarik
      = some { t with status := "completed" } := by
    rw [heq]
    exact findTarik_setTarikStatus_self tid "completed" s.tarik t hf
  refine ⟨by rw [heq], ?_, ?_, hfound, by rw [heq], ?_⟩
  · rw [heq]
    simp only []
    rw [lookupKey_updateKeyFirst_self, hn]
    rfl
  · intro nid hnid
    rw [heq]
    exact lookupKey_updateKeyFirst_ne nid t.nasabah_id _ _ hnid
  · exact Prod.ext
      (by
        rw [approve_tarik_not_pending (approve_tarik s tid).2 tid
          { t with status := "completed" } hfound (by simp)])
      (by
        rw [approve_tarik_not_pending (approve_tarik s tid).2 tid
          { t with status := "completed" } hfound (by simp)])

/-- A ledger holding one customer (id 1, balance 50) and one pending
withdrawal request (id 0, amount 20) for that customer. -/
def pendingLedger : LedgerState :=
  { nasabah := [(1, 50)], jenis := [], setoran := [],
    tarik := [{ id := 0, nasabah_id := 1, petugas_id := 1, jumlah := 20,
                tanggal := 3, status := "pending" }],
    pengepul := [], nextTarikId := 1 }

/-- Witness for C4: approving the pending request of `pendingLedger`
succeeds, debits 50 − 20, and a second approval fails without
mutation. -/
theorem approve_tarik_contract_witness :
    (approve_tarik pendingLedger 0).1 = true ∧
    lookupKey 1 (approve_tarik pendingLedger 0).2.nasabah = some (50 - 20) ∧
    approve_tarik (approve_tarik pendingLedger 0).2 0
      = (false, (approve_tarik pendingLedger 0).2) := by
  obtain ⟨h1, h2, h3, h4, h5, h6⟩ :=
    ((approve_tarik_contract pendingLedger 0).1
      { id := 0, nasabah_id := 1, petugas_id := 1, jumlah := 20, tanggal := 3,
        status := "pending" } 50
      (by norm_num [pendingLedger, findTarik]) rfl
      (by norm_num [pendingLedger, lookupKey])).1 (by norm_num)
  exact ⟨h1, h2, h6⟩

/-! ### Withdrawal state machine terminal safety -/

theorem applyOp_tarik_deposit (s : LedgerState) (d : TransaksiSetoranCreate) (now : ℕ) :
    (applyOp s (Op.deposit d now)).tarik = s.tarik := by
  simp only [applyOp, create_setoran]
  (repeat' split) <;> rfl

theorem applyOp_tarik_sale (s : LedgerState) (d : TransaksiPengepulCreate) (now : ℕ) :
    (applyOp s (Op.sale d now)).tarik = s.tarik := by
  simp only [applyOp, create_pengepul_transaction]

theorem findTarik_applyOp_of_terminal (s : LedgerState) (op : Op) (tid : ℕ)
    (t : TransaksiTarik) (hf : findTarik tid s.tarik = some t) (ht : t.status ≠ "pending") :
    findTarik tid (applyOp s op).tarik = some t := by
  cases op with
  | deposit d now => rw [applyOp_tarik_deposit s d now]; exact hf
  | sale d now => rw [applyOp_tarik_sale s d now]; exact hf
  | createTarik d now =>
    cases hn : lookupKey d.nasabah_id s.nasabah with
    | none => simpa [applyOp, create_tarik_none_nasabah s d now hn] using hf
    | some saldo =>
      by_cases hlt : saldo < d.jumlah
      · simpa [applyOp, create_tarik_insufficient s d now saldo hn hlt] using hf
      · simp only [applyOp, create_tarik_eq_some s d now saldo hn (not_lt.mp hlt)]
        exact findTarik_append_some tid s.tarik _ t hf
  | approveTarik tidtwo =>
    cases hftwo : findTarik tidtwo s.tarik with
    | none => simpa [applyOp, approve_tarik_none s tidtwo hftwo] using hf
    | some ttwo =>
      by_cases hstwo : ttwo.status = "pending"
      · cases hn : lookupKey ttwo.nasabah_id s.nasabah with
        | none => simpa [applyOp, approve_tarik_no_nasabah s tidtwo ttwo hftwo hstwo hn] using hf
        | some saldo =>
          by_cases hlt : saldo < ttwo.jumlah
          · simpa [applyOp,
              approve_tarik_insufficient s tidtwo ttwo saldo hftwo hstwo hn hlt] using hf
          · by_cases htid : tidtwo = tid
            · subst htid
              rw [hf] at hftwo
              injection hftwo with heq
              rw [← heq] at hstwo
              exact absurd hstwo ht
            · simp only [applyOp,
                approve_tarik_eq_true s tidtwo ttwo saldo hftwo hstwo hn (not_lt.mp hlt)]
              rw [findTarik_setTarikStatus_ne tid tidtwo "completed" s.tarik htid]
              exact hf
      · simpa [applyOp, approve_tarik_not_pending s tidtwo ttwo hftwo hstwo] using hf
  | rejectTarik tidtwo =>
    cases hftwo : findTarik tidtwo s.tarik with
    | none => simpa [applyOp, reject_tarik_none s tidtwo hftwo] using hf
    | some ttwo =>
      by_cases hstwo : ttwo.status = "pending"
      · by_cases htid : tidtwo = tid
        · subst htid
          rw [hf] at hftwo
          injection hftwo with heq
          rw [← heq] at hstwo
          exact absurd hstwo ht
        · simp only [applyOp, reject_tarik_eq_true s tidtwo ttwo hftwo hstwo]
          rw [findTarik_setTarikStatus_ne tid tidtwo "rejected" s.tarik htid]
          exact hf
      · simpa [applyOp, reject_tarik_not_pending s tidtwo ttwo hftwo hstwo] using hf

theorem findTarik_runOps_of_terminal (s : LedgerState) (ops : List Op) (tid : ℕ)
    (t : TransaksiTarik) (hf : findTarik tid s.tarik = some t) (ht : t.status ≠ "pending") :
    findTarik tid (runOps s ops).tarik = some t := by
  induction ops generalizing s with
  | nil => simpa [runOps] using hf
  | cons op rest ih =>
    simpa [runOps] using ih (applyOp s op) (findTarik_applyOp_of_terminal s op tid t hf ht)

/-- C6.  The withdrawal state machine is terminal-safe: `reject_tarik`
on a `"pending"` request marks it `"rejected"` and changes no customer
balance (and no other table); on a non-pending request it fails and
mutates nothing; and once a request's status is `"completed"` or
`"rejected"`, no sequence of ledger operations (in particular no
approve or reject call) ever changes that request again — a rejected
request can never become completed. -/
theorem withdrawal_terminal_safety (s : LedgerState) (tid : ℕ) :
    (∀ t, findTarik tid s.tarik = some t → t.status = "pending" →
      (reject_tarik s tid).1 = true ∧
      findTarik tid (reject_tarik s tid).2.tarik = some { t with status := "rejected" } ∧
      (reject_tarik s tid).2.nasabah = s.nasabah ∧
      (reject_tarik s tid).2.setoran = s.setoran ∧
      (reject_tarik s tid).2.pengepul = s.pengepul) ∧
    (∀ t, findTarik tid s.tarik = some t → t.status ≠ "pending" →
      reject_tarik s tid = (false, s)) ∧
    (∀ ops t, findTarik tid s.tarik = some t →
      (t.status = "completed" ∨ t.status = "rejected") →
      findTarik tid (runOps s ops).tarik = some t) := by
  refine ⟨fun t hf hs => ?_, fun t hf hs => reject_tarik_not_pending s tid t hf hs,
    fun ops t hf hterm => ?_⟩
  · have heq := reject_tarik_eq_true s tid t hf hs
    refine ⟨by rw [heq], ?_, by rw [heq], by rw [heq], by rw [heq]⟩
    rw [heq]
    exact findTarik_setTarikStatus_self tid "rejected" s.tarik t hf
  · have ht : t.status ≠ "pending" := by
      cases hterm with
      | inl h => rw [h]; simp
      | inr h => rw [h]; simp
    exact findTarik_runOps_of_terminal s ops tid t hf ht

/-- Witness for C6: rejecting the pending request of `pendingLedger`
marks it rejected and leaves the balance table unchanged; afterwards
(status `"rejected"`) an approval run never changes it. -/
theorem withdrawal_terminal_safety_witness :
    (reject_tarik pendingLedger 0).1 = true ∧
    (reject_tarik pendingLedger 0).2.nasabah = pendingLedger.nasabah ∧
    findTarik 0 (runOps (reject_tarik pendingLedger 0).2 [Op.approveTarik 0]).tarik
      = some { id := 0, nasabah_id := 1, petugas_id := 1, jumlah := 20,
               tanggal := 3, status := "rejected" } := by
  obtain ⟨h1, h2, h3, h4, h5⟩ :=
    (withdrawal_terminal_safety pendingLedger 0).1
      { id := 0, nasabah_id := 1, petugas_id := 1, jumlah := 20, tanggal := 3,
        status := "pending" }
      (by norm_num [pendingLedger, findTarik]) rfl
  refine ⟨h1, h3, ?_⟩
  exact (withdrawal_terminal_safety (reject_tarik pendingLedger 0).2 0).2.2
    [Op.approveTarik 0] _ h2 (Or.inr rfl)

/-! ### Approval with a vanished customer -/

/-- C10.  `approve_tarik` on a request that exists with status
`"pending"` but whose referenced customer is absent from the customer
table returns the failure outcome (it does not raise) and leaves the
state — the request still `"pending"`, every balance and record —
completely unchanged. -/
theorem approve_tarik_missing_customer (s : LedgerState) (tid : ℕ) (t : TransaksiTarik)
    (hf : findTarik tid s.tarik = some t) (hs : t.status = "pending")
    (hn : lookupKey t.nasabah_id s.nasabah = none) :
    approve_tarik s tid = (false, s) :=
  approve_tarik_no_nasabah s tid t hf hs hn

/-- A ledger with a pending request whose customer (id 7) is missing
from the customer table. -/
def orphanLedger : LedgerState :=
  { nasabah := [(1, 50)], jenis := [], setoran := [],
    tarik := [{ id := 0, nasabah_id := 7, petugas_id := 1, jumlah := 20,
                tanggal := 3, status := "pending" }],
    pengepul := [], nextTarikId := 1 }

/-- Witness for C10: approving the orphaned pending request of
`orphanLedger` fails and changes nothing. -/
theorem approve_tarik_missing_customer_witness :
    approve_tarik orphanLedger 0 = (false, orphanLedger) :=
  approve_tarik_missing_customer orphanLedger 0
    { id := 0, nasabah_id := 7, petugas_id := 1, jumlah := 20, tanggal := 3,
      status := "pending" }
    (by norm_num [orphanLedger, findTarik]) rfl (by norm_num [orphanLedger, lookupKey])

/-! ### Collector sale contract -/

/-- C7 (amended).  `create_pengepul_transaction` never fails: for every
input — with no validation of `weight > 0` or `salePrice > 0` and no
resolution of the collector or waste-type id — it appends exactly one
record with `total = berat * harga_jual` computed exactly (no
rounding), and changes no customer balance and no other table. -/
theorem create_pengepul_contract (s : LedgerState) (d : TransaksiPengepulCreate) (now : ℕ) :
    ∃ t, (create_pengepul_transaction s d now).1 = some t ∧
      t.total = d.berat * d.harga_jual ∧
      t.berat = d.berat ∧ t.harga_jual = d.harga_jual ∧
      t.pengepul_id = d.pengepul_id ∧ t.jenis_sampah_id = d.jenis_sampah_id ∧
      (create_pengepul_transaction s d now).2.pengepul = s.pengepul ++ [t] ∧
      (create_pengepul_transaction s d now).2.nasabah = s.nasabah ∧
      (create_pengepul_transaction s d now).2.setoran = s.setoran ∧
      (create_pengepul_transaction s d now).2.tarik = s.tarik ∧
      (create_pengepul_transaction s d now).2.jenis = s.jenis :=
  ⟨_, rfl, rfl, rfl, rfl, rfl, rfl, rfl, rfl, rfl, rfl, rfl⟩

/-- Counterexample to C7 as stated: a sale with weight −1 ≤ 0, sale
price −2 ≤ 0 and collector/waste-type ids 99 that resolve to nothing
(the catalog is empty) still succeeds and appends one record with
total 2 — the claim demands failure on every one of those conditions.
Also the recorded total of a 0.111 kg sale at price 0.15 is the exact
product 0.01665, not rounded to 2 fractional digits. -/
theorem create_pengepul_cex :
    ((create_pengepul_transaction (emptyLedger [] []) ⟨99, 99, -1, -2⟩ 0).1).isSome = true ∧
    (create_pengepul_transaction (emptyLedger [] []) ⟨99, 99, -1, -2⟩ 0).2.pengepul.length
      = 1 ∧
    ((create_pengepul_transaction (emptyLedger [] []) ⟨99, 99, -1, -2⟩ 0).2.pengepul.map
        (fun t => t.total)) = [(2 : ℚ)] ∧
    ((create_pengepul_transaction (emptyLedger [] []) ⟨99, 99, 111 / 1000, 3 / 20⟩
        0).2.pengepul.map (fun t => t.total)) = [(333 : ℚ) / 20000] ∧
    roundHalfUp2 ((333 : ℚ) / 20000) ≠ (333 : ℚ) / 20000 := by
  refine ⟨?_, ?_, ?_, ?_, ?_⟩ <;>
    norm_num [create_pengepul_transaction, emptyLedger, roundHalfUp2]

/-! ### Stock aggregation -/

/-- Sum of the deltas attached to one key. -/
def sumValsFor (k : ℕ) : List (ℕ × ℚ) → ℚ
  | [] => 0
  | p :: ps => (if p.1 = k then p.2 else 0) + sumValsFor k ps

theorem lookupKey_eq_none_iff (k : ℕ) (m : List (ℕ × α)) :
    lookupKey k m = none ↔ k ∉ m.map Prod.fst := by
  induction m with
  | nil => simp [lookupKey]
  | cons kv rest ih =>
    by_cases hk : kv.1 = k
    · simp [lookupKey, hk]
    · simp [lookupKey, hk, ih, Ne.symm hk]

theorem lookupKey_bumpAssoc_self (m : List (ℕ × ℚ)) (k : ℕ) (delta : ℚ) :
    lookupKey k (bumpAssoc m k delta) = some ((lookupKey k m).getD 0 + delta) := by
  induction m with
  | nil => simp [bumpAssoc, lookupKey]
  | cons kv rest ih =>
    by_cases hk : kv.1 = k <;> simp [bumpAssoc, lookupKey, hk, ih]

theorem lookupKey_bumpAssoc_ne (m : List (ℕ × ℚ)) (k : ℕ) (delta : ℚ) (kq : ℕ)
    (h : kq ≠ k) : lookupKey kq (bumpAssoc m k delta) = lookupKey kq m := by
  induction m with
  | nil => simp [bumpAssoc, lookupKey, Ne.symm h]
  | cons kv rest ih =>
    by_cases hk : kv.1 = k
    · have hne : ¬ kv.1 = kq := by rw [hk]; exact fun hc => h hc.symm
      simp [bumpAssoc, lookupKey, hk, hne, Ne.symm h]
    · by_cases hq : kv.1 = kq <;> simp [bumpAssoc, lookupKey, hk, hq, ih, h, Ne.symm h]

theorem mem_keys_bumpAssoc (m : List (ℕ × ℚ)) (k : ℕ) (delta : ℚ) (kq : ℕ) :
    kq ∈ (bumpAssoc m k delta).map Prod.fst ↔ kq ∈ m.map Prod.fst ∨ kq = k := by
  induction m with
  | nil => simp [bumpAssoc, eq_comm]
  | cons kv rest ih =>
    by_cases hk : kv.1 = k
    · simp [bumpAssoc, hk]
      tauto
    · simp [bumpAssoc, hk, ih]
      tauto

theorem nodup_keys_bumpAssoc (m : List (ℕ × ℚ)) (k : ℕ) (delta : ℚ)
    (h : (m.map Prod.fst).Nodup) : ((bumpAssoc m k delta).map Prod.fst).Nodup := by
  induction m with
  | nil => simp [bumpAssoc]
  | cons kv rest ih =>
    rw [List.map_cons, List.nodup_cons] at h
    by_cases hk : kv.1 = k
    · simpa [bumpAssoc, hk, List.nodup_cons] using h
    · rw [show bumpAssoc (kv :: rest) k delta = kv :: bumpAssoc rest k delta by
        simp [bumpAssoc, hk]]
      rw [List.map_cons, List.nodup_cons]
      refine ⟨?_, ih h.2⟩
      rw [mem_keys_bumpAssoc]
      rintro (hmem | hmem)
      · exact h.1 hmem
      · exact hk hmem

theorem lookupKey_bumpFold (items : List (ℕ × ℚ)) (m : List (ℕ × ℚ)) (k : ℕ) :
    lookupKey k (bumpFold items m) =
      if k ∈ m.map Prod.fst ∨ k ∈ items.map Prod.fst
      then some ((lookupKey k m).getD 0 + sumValsFor k items)
      else none := by
  induction items generalizing m with
  | nil =>
    by_cases hk : k ∈ m.map Prod.fst
    · obtain ⟨v, hv⟩ := Option.ne_none_iff_exists'.mp
        (fun hnone => (lookupKey_eq_none_iff k m).mp hnone hk)
      simp [bumpFold, hk, hv, sumValsFor]
    · simp [bumpFold, hk, (lookupKey_eq_none_iff k m).mpr hk]
  | cons p ps ih =>
    obtain ⟨pk, pv⟩ := p
    show lookupKey k (bumpFold ps (bumpAssoc m pk pv)) = _
    rw [ih]
    by_cases hk : k = pk
    · subst hk
      rw [if_pos (Or.inl ((mem_keys_bumpAssoc m k pv k).mpr (Or.inr rfl))),
        lookupKey_bumpAssoc_self,
        if_pos (Or.inr (by simp : k ∈ List.map Prod.fst ((k, pv) :: ps)))]
      have hval : sumValsFor k ((k, pv) :: ps) = pv + sumValsFor k ps := by
        simp [sumValsFor]
      rw [hval, Option.getD_some, add_assoc]
    · rw [lookupKey_bumpAssoc_ne m pk pv k hk]
      have hval : sumValsFor k ((pk, pv) :: ps) = sumValsFor k ps := by
        simp [sumValsFor, Ne.symm hk]
      rw [hval]
      have hcond : (k ∈ (bumpAssoc m pk pv).map Prod.fst ∨ k ∈ ps.map Prod.fst) ↔
          (k ∈ m.map Prod.fst ∨ k ∈ List.map Prod.fst ((pk, pv) :: ps)) := by
        rw [mem_keys_bumpAssoc, List.map_cons, List.mem_cons]
        constructor
        · rintro ((h | h) | h)
          · exact Or.inl h
          · exact absurd h hk
          · exact Or.inr (Or.inr h)
        · rintro (h | h | h)
          · exact Or.inl (Or.inl h)
          · exact absurd h hk
          · exact Or.inr h
      exact if_congr hcond rfl rfl

theorem mem_keys_bumpFold (items : List (ℕ × ℚ)) (m : List (ℕ × ℚ)) (kq : ℕ) :
    kq ∈ (bumpFold items m).map Prod.fst ↔
      kq ∈ m.map Prod.fst ∨ kq ∈ items.map Prod.fst := by
  induction items generalizing m with
  | nil => simp [bumpFold]
  | cons p ps ih =>
    obtain ⟨pk, pv⟩ := p
    show kq ∈ (bumpFold ps (bumpAssoc m pk pv)).map Prod.fst ↔ _
    rw [ih, mem_keys_bumpAssoc]
    simp
    tauto

theorem nodup_keys_bumpFold (items : List (ℕ × ℚ)) (m : List (ℕ × ℚ))
    (h : (m.map Prod.fst).Nodup) : ((bumpFold items m).map Prod.fst).Nodup := by
  induction items generalizing m with
  | nil => simpa [bumpFold] using h
  | cons p ps ih =>
    obtain ⟨pk, pv⟩ := p
    exact ih (bumpAssoc m pk pv) (nodup_keys_bumpAssoc m pk pv h)

theorem sumValsFor_map_setoran (k : ℕ) (l : List TransaksiSetoran) :
    sumValsFor k (l.map (fun t => (t.jenis_sampah_id, t.berat))) = depositedWeight k l := by
  induction l with
  | nil => rfl
  | cons t ts ih => simp [sumValsFor, depositedWeight, ih]

theorem sumValsFor_map_pengepul (k : ℕ) (l : List TransaksiPengepul) :
    sumValsFor k (l.map (fun t => (t.jenis_sampah_id, -t.berat))) = -soldWeight k l := by
  induction l with
  | nil => simp [sumValsFor, soldWeight]
  | cons t ts ih =>
    by_cases h : t.jenis_sampah_id = k
    · simp [sumValsFor, soldWeight, h, ih]
      ring
    · simp [sumValsFor, soldWeight, h, ih]

theorem depositedWeight_eq_zero (k : ℕ) (l : List TransaksiSetoran)
    (h : k ∉ l.map (fun t => t.jenis_sampah_id)) : depositedWeight k l = 0 := by
  induction l with
  | nil => rfl
  | cons t ts ih =>
    simp at h
    simp [depositedWeight, Ne.symm h.1, ih (by simpa using h.2)]

theorem mapsum_max_eq_finsetsum (m : List (ℕ × ℚ)) (f : ℕ → ℚ)
    (hnd : (m.map Prod.fst).Nodup)
    (hf : ∀ kq ∈ m.map Prod.fst, lookupKey kq m = some (f kq)) :
    (m.map (fun p => max p.2 0)).sum = ∑ kq in (m.map Prod.fst).toFinset, max (f kq) 0 := by
  induction m with
  | nil => simp
  | cons p ps ih =>
    obtain ⟨pk, pv⟩ := p
    rw [List.map_cons, List.nodup_cons] at hnd
    have hv : f pk = pv := by
      have hl := hf pk (by simp)
      simp [lookupKey] at hl
      exact hl.symm
    have hfrest : ∀ kq ∈ ps.map Prod.fst, lookupKey kq ps = some (f kq) := by
      intro kq hkq
      have hne : ¬ pk = kq := fun hc => hnd.1 (hc ▸ hkq)
      have hl := hf kq (by simp [hkq])
      simpa [lookupKey, hne] using hl
    rw [List.map_cons, List.sum_cons, List.map_cons, List.toFinset_cons,
      Finset.sum_insert (by simpa using hnd.1), ih hnd.2 hfrest, hv]

/-- C8.  `get_total_waste_stock` equals the sum, over the waste-type
ids occurring in deposit or collector-sale records, of
`max(deposited − sold, 0)`; an over-sold type contributes exactly 0 and
does not offset any other type, and the result is never negative. -/
theorem get_total_waste_stock_spec (s : LedgerState) :
    get_total_waste_stock s =
      (∑ k in ((s.setoran.map (fun t => t.jenis_sampah_id))
          ++ (s.pengepul.map (fun t => t.jenis_sampah_id))).toFinset,
        max (depositedWeight k s.setoran - soldWeight k s.pengepul) 0) ∧
    0 ≤ get_total_waste_stock s := by
  constructor
  · have hndone : ((bumpFold (s.setoran.map (fun t => (t.jenis_sampah_id, t.berat)))
        ([] : List (ℕ × ℚ))).map Prod.fst).Nodup :=
      nodup_keys_bumpFold _ [] (by simp)
    have hnd : ((bumpFold (s.pengepul.map (fun t => (t.jenis_sampah_id, -t.berat)))
        (bumpFold (s.setoran.map (fun t => (t.jenis_sampah_id, t.berat))) [])).map
          Prod.fst).Nodup :=
      nodup_keys_bumpFold _ _ hndone
    have hkeys : ∀ kq,
        kq ∈ ((bumpFold (s.pengepul.map (fun t => (t.jenis_sampah_id, -t.berat)))
          (bumpFold (s.setoran.map (fun t => (t.jenis_sampah_id, t.berat))) [])).map
            Prod.fst) ↔
        kq ∈ s.setoran.map (fun t => t.jenis_sampah_id) ∨
          kq ∈ s.pengepul.map (fun t => t.jenis_sampah_id) := by
      intro kq
      rw [mem_keys_bumpFold, mem_keys_bumpFold]
      simp [List.mem_map]
    have hlook : ∀ kq ∈ ((bumpFold (s.pengepul.map (fun t => (t.jenis_sampah_id, -t.berat)))
          (bumpFold (s.setoran.map (fun t => (t.jenis_sampah_id, t.berat))) [])).map
            Prod.fst),
        lookupKey kq (bumpFold (s.pengepul.map (fun t => (t.jenis_sampah_id, -t.berat)))
          (bumpFold (s.setoran.map (fun t => (t.jenis_sampah_id, t.berat))) []))
        = some (depositedWeight kq s.setoran - soldWeight kq s.pengepul) := by
      intro kq hkq
      have hmem := (hkeys kq).mp hkq
      have hinner : lookupKey kq
          (bumpFold (s.setoran.map (fun t => (t.jenis_sampah_id, t.berat))) []) =
          if kq ∈ (s.setoran.map (fun t => (t.jenis_sampah_id, t.berat))).map Prod.fst
          then some (depositedWeight kq s.setoran) else none := by
        rw [lookupKey_bumpFold]
        simp [lookupKey, sumValsFor_map_setoran]
      rw [lookupKey_bumpFold, hinner]
      by_cases hdep : kq ∈ (s.setoran.map (fun t => (t.jenis_sampah_id, t.berat))).map Prod.fst
      · rw [if_pos hdep, if_pos (Or.inl ((mem_keys_bumpFold _ _ kq).mpr (Or.inr hdep))),
          Option.getD_some, sumValsFor_map_pengepul]
        congr 1
        ring
      · have hdepzero : depositedWeight kq s.setoran = 0 := by
          apply depositedWeight_eq_zero
          intro hc
          apply hdep
          simp only [List.map_map]
          simpa using hc
        have hsold : kq ∈ (s.pengepul.map (fun t => (t.jenis_sampah_id, -t.berat))).map
            Prod.fst := by
          rcases hmem with hmem | hmem
          · exact absurd (by simpa [List.map_map] using hmem) hdep
          · simpa [List.map_map] using hmem
        rw [if_neg hdep, if_pos (Or.inr hsold), Option.getD_none,
          sumValsFor_map_pengepul, hdepzero]
        congr 1
        ring
    show ((bumpFold (s.pengepul.map (fun t => (t.jenis_sampah_id, -t.berat)))
        (bumpFold (s.setoran.map (fun t => (t.jenis_sampah_id, t.berat))) [])).map
          (fun p => max p.2 0)).sum = _
    rw [mapsum_max_eq_finsetsum _
      (fun kq => depositedWeight kq s.setoran - soldWeight kq s.pengepul) hnd hlook]
    apply Finset.sum_congr
    · apply Finset.ext
      intro kq
      rw [List.mem_toFinset, List.mem_toFinset, hkeys, List.mem_append]
    · intro kq _
      rfl
  · show (0 : ℚ) ≤ ((bumpFold (s.pengepul.map (fun t => (t.jenis_sampah_id, -t.berat)))
        (bumpFold (s.setoran.map (fun t => (t.jenis_sampah_id, t.berat))) [])).map
          (fun p => max p.2 0)).sum
    apply List.sum_nonneg
    intro x hx
    rw [List.mem_map] at hx
    obtain ⟨p, _, hpx⟩ := hx
    rw [← hpx]
    exact le_max_right p.2 0

/-! ### Transaction report -/

/-- The calendar date of a timestamp (`cast(tanggal, Date)`), modelled
as the order-preserving quotient of the timestamp by the length of a
day. -/
def dateOf (ts : ℕ) : ℕ := ts / 86400

/-- The date-range condition of the report queries:
`cast(tanggal, Date) >= start_date` and `<= end_date`. -/
def inDateRange (sd ed ts : ℕ) : Bool := decide (sd ≤ dateOf ts) && decide (dateOf ts ≤ ed)

/-- `TransactionReport` (`models.py`), reduced to the ledger-relevant
fields an entry carries: a kind tag (`"setoran"`, `"tarik"` or
`"pengepul"`), the weight when applicable, the monetary value and the
timestamp.  (The display names resolved from the reference catalog are
presentation data outside the ledger model.) -/
structure TransactionReport where
  transaction_type : String
  berat : Option ℚ
  nilai : ℚ
  tanggal : ℕ
deriving DecidableEq

/-- The report entry built for a deposit (`report_service.py` 41-52). -/
def setoranEntry (t : TransaksiSetoran) : TransactionReport :=
  { transaction_type := "setoran", berat := some t.berat, nilai := t.nilai,
    tanggal := t.tanggal }

/-- The report entry built for a completed withdrawal
(`report_service.py` 66-75); no weight field. -/
def tarikEntry (t : TransaksiTarik) : TransactionReport :=
  { transaction_type := "tarik", berat := none, nilai := t.jumlah, tanggal := t.tanggal }

/-- The report entry built for a collector sale
(`report_service.py` 87-97). -/
def pengepulEntry (t : TransaksiPengepul) : TransactionReport :=
  { transaction_type := "pengepul", berat := some t.berat, nilai := t.total,
    tanggal := t.tanggal }

/-- Report entries sorted by timestamp descending, later entries placed
after earlier ones on ties. -/
def tanggalGe (a b : TransactionReport) : Prop := b.tanggal ≤ a.tanggal

/-- One step of a stable descending sort by `tanggal`: walk past every
element whose timestamp is ≥ the new element's, insert before the first
strictly smaller one. -/
def insertByTanggalDesc (x : TransactionReport) :
    List TransactionReport → List TransactionReport
  | [] => [x]
  | y :: ys => if x.tanggal ≤ y.tanggal then y :: insertByTanggalDesc x ys else x :: y :: ys

/-- `sorted(reports, key=lambda x: x.tanggal, reverse=True)`
(`report_service.py` line 100): Python's sort is stable, so this is the
stable descending sort by timestamp, modelled by stable insertion. -/
def sortByTanggalDesc (l : List TransactionReport) : List TransactionReport :=
  l.foldl (fun acc x => insertByTanggalDesc x acc) []

/-- `ReportService.generate_transaction_report` (`report_service.py`
lines 25-100).  Collects the deposits, the `"completed"` withdrawals
and the collector sales whose calendar date lies in
`[start_date, end_date]`, in that assembly order, and stably sorts the
entries by timestamp descending. -/
def generate_transaction_report (sd ed : ℕ) (s : LedgerState) : List TransactionReport :=
  let reports :=
    ((s.setoran.filter (fun t => inDateRange sd ed t.tanggal)).map setoranEntry)
      ++ ((s.tarik.filter (fun t =>
            inDateRange sd ed t.tanggal && t.status == "completed")).map tarikEntry)
      ++ ((s.pengepul.filter (fun t => inDateRange sd ed t.tanggal)).map pengepulEntry)
  sortByTanggalDesc reports

theorem insertByTanggalDesc_perm (x : TransactionReport) (l : List TransactionReport) :
    List.Perm (insertByTanggalDesc x l) (x :: l) := by
  induction l with
  | nil => exact List.Perm.refl [x]
  | cons y ys ih =>
    by_cases hc : x.tanggal ≤ y.tanggal
    · rw [show insertByTanggalDesc x (y :: ys) = y :: insertByTanggalDesc x ys by
        simp [insertByTanggalDesc, hc]]
      exact (ih.cons y).trans (List.Perm.swap x y ys)
    · rw [show insertByTanggalDesc x (y :: ys) = x :: y :: ys by
        simp [insertByTanggalDesc, hc]]

theorem insertByTanggalDesc_pairwise (x : TransactionReport) (l : List TransactionReport)
    (hl : l.Pairwise tanggalGe) : (insertByTanggalDesc x l).Pairwise tanggalGe := by
  induction l with
  | nil => simp [insertByTanggalDesc, List.pairwise_cons]
  | cons y ys ih =>
    rw [List.pairwise_cons] at hl
    by_cases hc : x.tanggal ≤ y.tanggal
    · rw [show insertByTanggalDesc x (y :: ys) = y :: insertByTanggalDesc x ys by
        simp [insertByTanggalDesc, hc]]
      rw [List.pairwise_cons]
      refine ⟨?_, ih hl.2⟩
      intro z hz
      rcases List.mem_cons.mp ((insertByTanggalDesc_perm x ys).mem_iff.mp hz) with hz | hz
      · rw [hz]
        exact hc
      · exact hl.1 z hz
    · rw [show insertByTanggalDesc x (y :: ys) = x :: y :: ys by
        simp [insertByTanggalDesc, hc]]
      rw [List.pairwise_cons]
      constructor
      · intro z hz
        rcases List.mem_cons.mp hz with hz | hz
        · rw [hz]
          exact le_of_lt (not_le.mp hc)
        · exact le_trans (hl.1 z hz) (le_of_lt (not_le.mp hc))
      · rw [List.pairwise_cons]
        exact hl

theorem insertByTanggalDesc_filter (x : TransactionReport) (l : List TransactionReport)
    (v : ℕ) (hl : l.Pairwise tanggalGe) :
    (insertByTanggalDesc x l).filter (fun e => e.tanggal == v)
      = l.filter (fun e => e.tanggal == v)
        ++ (if x.tanggal = v then [x] else []) := by
  induction l with
  | nil =>
    by_cases hx : x.tanggal = v <;> simp [insertByTanggalDesc, List.filter_cons, hx]
  | cons y ys ih =>
    rw [List.pairwise_cons] at hl
    by_cases hc : x.tanggal ≤ y.tanggal
    · rw [show insertByTanggalDesc x (y :: ys) = y :: insertByTanggalDesc x ys by
        simp [insertByTanggalDesc, hc]]
      by_cases hy : y.tanggal = v <;>
        simp [List.filter_cons, hy, ih hl.2]
    · rw [show insertByTanggalDesc x (y :: ys) = x :: y :: ys by
        simp [insertByTanggalDesc, hc]]
      by_cases hx : x.tanggal = v
      · have hyne : ¬ y.tanggal = v := by
          intro hy
          rw [hx, ← hy] at hc
          exact hc le_rfl
        have hysnil : ys.filter (fun e => e.tanggal == v) = [] := by
          rw [List.filter_eq_nil_iff]
          intro z hz
          have hzy : z.tanggal ≤ y.tanggal := hl.1 z hz
          have : z.tanggal < v := by
            rw [← hx]
            exact lt_of_le_of_lt hzy (not_le.mp hc)
          simp [Nat.ne_of_lt this]
        simp [List.filter_cons, hx, hyne, hysnil]
      · simp [List.filter_cons, hx]

theorem sortFold_perm (l acc : List TransactionReport) :
    List.Perm (l.foldl (fun a x => insertByTanggalDesc x a) acc) (acc ++ l) := by
  induction l generalizing acc with
  | nil => simp
  | cons x xs ih =>
    have hone : List.Perm (xs.foldl (fun a x => insertByTanggalDesc x a)
        (insertByTanggalDesc x acc)) (insertByTanggalDesc x acc ++ xs) :=
      ih (insertByTanggalDesc x acc)
    have htwo : List.Perm (insertByTanggalDesc x acc ++ xs) ((x :: acc) ++ xs) :=
      (insertByTanggalDesc_perm x acc).append_right xs
    have hthree : List.Perm ((x :: acc) ++ xs) (acc ++ x :: xs) := List.perm_middle.symm
    exact (hone.trans htwo).trans hthree

theorem sortFold_pairwise (l acc : List TransactionReport) (hacc : acc.Pairwise tanggalGe) :
    (l.foldl (fun a x => insertByTanggalDesc x a) acc).Pairwise tanggalGe := by
  induction l generalizing acc with
  | nil => exact hacc
  | cons x xs ih => exact ih (insertByTanggalDesc x acc) (insertByTanggalDesc_pairwise x acc hacc)

theorem sortFold_filter (l acc : List TransactionReport) (v : ℕ)
    (hacc : acc.Pairwise tanggalGe) :
    (l.foldl (fun a x => insertByTanggalDesc x a) acc).filter (fun e => e.tanggal == v)
      = acc.filter (fun e => e.tanggal == v) ++ l.filter (fun e => e.tanggal == v) := by
  induction l generalizing acc with
  | nil => simp
  | cons x xs ih =>
    have hstep := ih (insertByTanggalDesc x acc) (insertByTanggalDesc_pairwise x acc hacc)
    calc ((x :: xs).foldl (fun a x => insertByTanggalDesc x a) acc).filter
          (fun e => e.tanggal == v)
        = (insertByTanggalDesc x acc).filter (fun e => e.tanggal == v)
            ++ xs.filter (fun e => e.tanggal == v) := hstep
      _ = acc.filter (fun e => e.tanggal == v)
            ++ (x :: xs).filter (fun e => e.tanggal == v) := by
          rw [insertByTanggalDesc_filter x acc v hacc]
          by_cases hx : x.tanggal = v <;> simp [List.filter_cons, hx]

/-- C9 (amended).  `generate_transaction_report` returns, for
`start ≤ end`, a permutation of: one tagged entry per deposit record,
per `"completed"` withdrawal request (pending and rejected excluded)
and per collector-sale record whose timestamp's calendar date lies in
`[start, end]` — assembled in that kind order — sorted by timestamp
descending; ties are broken stably by that assembly order (deposits,
then completed withdrawals, then sales, each in record-store order),
not by global insertion order across kinds. -/
theorem generate_transaction_report_spec (sd ed : ℕ) (s : LedgerState) (hrange : sd ≤ ed) :
    (generate_transaction_report sd ed s).Pairwise tanggalGe ∧
    List.Perm (generate_transaction_report sd ed s)
      (((s.setoran.filter (fun t => inDateRange sd ed t.tanggal)).map setoranEntry)
        ++ ((s.tarik.filter (fun t =>
              inDateRange sd ed t.tanggal && t.status == "completed")).map tarikEntry)
        ++ ((s.pengepul.filter (fun t => inDateRange sd ed t.tanggal)).map pengepulEntry)) ∧
    (∀ v, (generate_transaction_report sd ed s).filter (fun e => e.tanggal == v)
      = (((s.setoran.filter (fun t => inDateRange sd ed t.tanggal)).map setoranEntry)
          ++ ((s.tarik.filter (fun t =>
                inDateRange sd ed t.tanggal && t.status == "completed")).map tarikEntry)
          ++ ((s.pengepul.filter (fun t =>
                inDateRange sd ed t.tanggal)).map pengepulEntry)).filter
            (fun e => e.tanggal == v)) := by
  refine ⟨sortFold_pairwise _ [] (by simp), ?_, fun v => ?_⟩
  · exact (sortFold_perm _ []).trans (by simp)
  · rw [show generate_transaction_report sd ed s
        = sortByTanggalDesc
            (((s.setoran.filter (fun t => inDateRange sd ed t.tanggal)).map setoranEntry)
              ++ ((s.tarik.filter (fun t =>
                    inDateRange sd ed t.tanggal && t.status == "completed")).map tarikEntry)
              ++ ((s.pengepul.filter (fun t =>
                    inDateRange sd ed t.tanggal)).map pengepulEntry)) from rfl]
    rw [sortByTanggalDesc, sortFold_filter _ [] v (by simp)]
    simp

/-- Counterexample to C9 as stated: a collector sale is recorded
first and a deposit second, both at timestamp 7; tie-breaking by
insertion order would list the sale's entry first, but the code
assembles deposits before sales and sorts stably, so the report lists
the deposit's entry first and not the sale's. -/
theorem generate_transaction_report_cex :
    generate_transaction_report 0 0
        (runOps (emptyLedger [1] [(1, ⟨10, 12⟩)])
          [Op.sale ⟨1, 1, 3, 5⟩ 7, Op.deposit ⟨1, 1, 1, 2⟩ 7])
      = [{ transaction_type := "setoran", berat := some 2, nilai := 20, tanggal := 7 },
         { transaction_type := "pengepul", berat := some 3, nilai := 15, tanggal := 7 }] ∧
    generate_transaction_report 0 0
        (runOps (emptyLedger [1] [(1, ⟨10, 12⟩)])
          [Op.sale ⟨1, 1, 3, 5⟩ 7, Op.deposit ⟨1, 1, 1, 2⟩ 7])
      ≠ [{ transaction_type := "pengepul", berat := some 3, nilai := 15, tanggal := 7 },
         { transaction_type := "setoran", berat := some 2, nilai := 20, tanggal := 7 }] := by
  constructor <;>
    norm_num [generate_transaction_report, runOps, applyOp, create_setoran,
      create_pengepul_transaction, emptyLedger, lookupKey, updateKeyFirst,
      sortByTanggalDesc, insertByTanggalDesc, inDateRange, dateOf,
      setoranEntry, tarikEntry, pengepulEntry, List.filter_cons]

/-- A ledger with one deposit record at timestamp 5. -/
def reportLedger : LedgerState :=
  { nasabah := [(1, 10)], jenis := [(1, ⟨10, 12⟩)],
    setoran := [{ nasabah_id := 1, petugas_id := 1, jenis_sampah_id := 1, berat := 1,
                  nilai := 10, tanggal := 5 }],
    tarik := [], pengepul := [], nextTarikId := 0 }

/-- Witness for C9 (amended) at the concrete range [0, 1] over
`reportLedger`: the report is sorted descending and its timestamp-5
entries equal those of the assembled qualifying records. -/
theorem generate_transaction_report_spec_witness :
    (generate_transaction_report 0 1 reportLedger).Pairwise tanggalGe ∧
    (generate_transaction_report 0 1 reportLedger).filter (fun e => e.tanggal == 5)
      = (((reportLedger.setoran.filter (fun t => inDateRange 0 1 t.tanggal)).map setoranEntry)
          ++ ((reportLedger.tarik.filter (fun t =>
                inDateRange 0 1 t.tanggal && t.status == "completed")).map tarikEntry)
          ++ ((reportLedger.pengepul.filter (fun t =>
                inDateRange 0 1 t.tanggal)).map pengepulEntry)).filter
            (fun e => e.tanggal == 5) := by
  obtain ⟨hone, htwo, hthree⟩ :=
    generate_transaction_report_spec 0 1 reportLedger (by norm_num)
  exact ⟨hone, hthree 5⟩

end WasteBank
